import Mathlib

/-!
Shallow embedding of the simulation core of the missile-defense game in
`src/src/components/TinaNovaDefense.tsx`.

Modelling conventions:
* JavaScript numbers are `ℚ` for coordinates, times, speeds and radii and
  `ℤ` for the integer-valued quantities (score, ammo).
* Every `Math.random()` draw of a tick is supplied externally through an
  `Env` record (one field or indexed stream per draw site), so the update
  functions are deterministic in the draws.
* Render-only data — the `color` fields, the `id` fields (which are never
  read by the game logic, only used as render keys) and the canvas `draw`
  routine — is not modelled.
* The source tests `distance(p1, p2) < r` with
  `distance = Math.sqrt((dx)^2 + (dy)^2)`; over the reals this holds iff
  `0 < r` and the squared distance is `< r ^ 2`, which is how `distLtB`
  embeds the test without square roots.
* React state mirrors (`setScore`, `setWave`, `setWaveMessage`,
  `setGameState`) are modelled as fields of the single game state record;
  note that the `gameState` value read inside one tick of `update` is the
  closure value captured at the start of the tick, which is why `endGame`
  below takes the tick-start state as an extra argument.
-/

namespace TinaNova

/-- A 2-D point, as in the source's `Point` type. -/
structure Point where
  x : ℚ
  y : ℚ
deriving DecidableEq, Repr

/-- A missile tower (`Tower` in the source, minus the cosmetic `color`). -/
structure Tower where
  x : ℚ
  y : ℚ
  active : Bool
  ammo : ℤ
  maxAmmo : ℤ
deriving DecidableEq, Repr

/-- A city (`City` in the source, minus the cosmetic `color`). -/
structure City where
  x : ℚ
  y : ℚ
  active : Bool
deriving DecidableEq, Repr

/-- A player or enemy missile (`Missile` in the source). -/
structure Missile where
  x : ℚ
  y : ℚ
  active : Bool
  startX : ℚ
  startY : ℚ
  targetX : ℚ
  targetY : ℚ
  speed : ℚ
  progress : ℚ
  trail : List Point
deriving DecidableEq, Repr

/-- An explosion (`Explosion` in the source). -/
structure Explosion where
  x : ℚ
  y : ℚ
  active : Bool
  radius : ℚ
  maxRadius : ℚ
  duration : ℚ
  age : ℚ
deriving DecidableEq, Repr

/-- The five UI game states of the source's `gameState` React state. -/
inductive GState where
  | start
  | playing
  | victory
  | defeat
  | wave_complete
deriving DecidableEq, Repr

def GAME_WIDTH : ℚ := 800
def GAME_HEIGHT : ℚ := 600
def GROUND_HEIGHT : ℚ := 40
def WIN_SCORE : ℤ := 1000
def AMMO_BONUS : ℤ := 5

/-- Squared Euclidean distance between `(x1, y1)` and `(x2, y2)`. -/
def distSq (x1 y1 x2 y2 : ℚ) : ℚ := (x2 - x1) ^ 2 + (y2 - y1) ^ 2

/-- Embedding of the source's `distance(p1, p2) < r` test: since
`distance = Math.sqrt(distSq)` is nonnegative and the square root is
strictly monotone on nonnegatives, `sqrt d < r` iff `0 < r ∧ d < r ^ 2`. -/
def distLtB (x1 y1 x2 y2 r : ℚ) : Bool :=
  decide (0 < r) && decide (distSq x1 y1 x2 y2 < r ^ 2)

/-- Trail-buffer push with eviction: `trail.push(p); if (len > cap) shift()`. -/
def capPush (cap : ℕ) (tr : List Point) (p : Point) : List Point :=
  let tr2 := tr ++ [p]
  if cap < tr2.length then tr2.tail else tr2

/-- The triangular radius envelope computed each tick in the explosion
update: grow linearly to `maxRadius` at `duration / 2`, then shrink
linearly back. -/
def radiusAt (maxRadius duration age : ℚ) : ℚ :=
  let halfLife := duration / 2
  if age < halfLife then (age / halfLife) * maxRadius
  else (1 - (age - halfLife) / halfLife) * maxRadius

/-- The mutable game state of the source (the `state` ref together with the
React-mirrored `score`, `wave`, `waveMessage` and `gameState`).
`waveMessage` holds the last recorded ammo bonus. -/
structure GameSt where
  gameState : GState
  towers : List Tower
  cities : List City
  playerMissiles : List Missile
  enemyMissiles : List Missile
  explosions : List Explosion
  spawnTimer : ℚ
  spawnInterval : ℚ
  score : ℤ
  wave : ℕ
  enemiesToSpawn : ℕ
  enemiesSpawned : ℕ
  enemySpeedMultiplier : ℚ
  waveMessage : ℤ
deriving DecidableEq, Repr

/-- The `Math.random()` draws consumed by one tick of `update`:
`r1` = spawn start x, `r2` = random ground target x, `r3` = the 0.7
structure-target roll, `r4` = structure index pick, `r5` = speed draw;
`pRoll i` / `eRoll i` are the trail rolls for the `i`-th player / enemy
missile of the tick. -/
structure Env where
  r1 : ℚ
  r2 : ℚ
  r3 : ℚ
  r4 : ℚ
  r5 : ℚ
  pRoll : ℕ → ℚ
  eRoll : ℕ → ℚ

-- --- Phase 1: spawn enemies / wave-complete check ---

/-- The active structures, in the source's spread order
`[...s.cities, ...s.towers].filter(t => t.active)`, projected to their
positions. -/
def activePoints (cs : List City) (ts : List Tower) : List Point :=
  (cs.filter (·.active)).map (fun c => ⟨c.x, c.y⟩) ++
    (ts.filter (·.active)).map (fun t => ⟨t.x, t.y⟩)

/-- Body of the spawn branch (executed when `enemiesSpawned < enemiesToSpawn`):
accumulate the spawn timer and, once it exceeds the interval, reset it,
count the spawn and push one enemy missile.  Target selection: with the
0.7 roll and at least one active structure, pick the structure indexed by
`⌊r4 * len⌋` (always in range for a draw in `[0, 1)`), else a random
ground point. -/
def spawnStep (dt : ℚ) (env : Env) (st : GameSt) : GameSt :=
  let timer := st.spawnTimer + dt
  if st.spawnInterval < timer then
    let startX := env.r1 * GAME_WIDTH
    let groundX := env.r2 * GAME_WIDTH
    let groundY := GAME_HEIGHT - GROUND_HEIGHT
    let tgts := activePoints st.cities st.towers
    let tgt : Point :=
      if 0 < tgts.length ∧ env.r3 < 0.7 then
        tgts.getD (Int.toNat ⌊env.r4 * (tgts.length : ℚ)⌋) ⟨groundX, groundY⟩
      else ⟨groundX, groundY⟩
    { st with
      spawnTimer := 0, enemiesSpawned := st.enemiesSpawned + 1,
      enemyMissiles := st.enemyMissiles ++
        [{ x := startX, y := 0, active := true, startX := startX, startY := 0,
           targetX := tgt.x, targetY := tgt.y,
           speed := (0.03 + env.r5 * 0.02) * st.enemySpeedMultiplier,
           progress := 0, trail := [] }] }
  else { st with spawnTimer := timer }

/-- The wave bonus: sum over active towers of `ammo * AMMO_BONUS`. -/
def ammoBonus : List Tower → ℤ
  | [] => 0
  | t :: ts => (if t.active then t.ammo * AMMO_BONUS else 0) + ammoBonus ts

/-- Body of the wave-complete branch (executed when the spawn budget is
exhausted): if no enemy missiles and no explosions remain, add the ammo
bonus to the score, record it, and move to `wave_complete`.  The source
additionally schedules a `setTimeout` for the post-delay transition, which
is outside the tick and not part of this function. -/
def waveStep (st : GameSt) : GameSt :=
  if st.enemyMissiles.isEmpty && st.explosions.isEmpty then
    let bonus := ammoBonus st.towers
    { st with
      score := st.score + bonus, waveMessage := bonus,
      gameState := GState.wave_complete }
  else st

/-- Phase 1 of a tick, the `if (enemiesSpawned < enemiesToSpawn) ... else
if ...` conditional of the source. -/
def spawnOrWave (dt : ℚ) (env : Env) (st : GameSt) : GameSt :=
  if st.enemiesSpawned < st.enemiesToSpawn then spawnStep dt env st
  else waveStep st

-- --- Phase 2: player missiles ---

/-- One player missile step: advance `progress` by `speed * dt`, maybe push
a trail point (at the pre-update position), and on `progress ≥ 1`
deactivate and emit the player impact explosion at the target point;
otherwise recompute the interpolated position. -/
def stepPlayer (dt r : ℚ) (m : Missile) : Missile × Option Explosion :=
  if !m.active then (m, none) else
  let prog := m.progress + m.speed * dt
  let tr := if prog < 1 ∧ 0.5 < r then capPush 10 m.trail ⟨m.x, m.y⟩ else m.trail
  if 1 ≤ prog then
    ({ m with progress := prog, trail := tr, active := false },
     some { x := m.targetX, y := m.targetY, active := true, radius := 0,
            maxRadius := 70, duration := 1200, age := 0 })
  else
    ({ m with
       progress := prog, trail := tr,
       x := m.startX + (m.targetX - m.startX) * prog,
       y := m.startY + (m.targetY - m.startY) * prog }, none)

/-- The `forEach` over player missiles; `i` indexes the trail rolls. -/
def playerPhase (dt : ℚ) (roll : ℕ → ℚ) : ℕ → List Missile → List Missile × List Explosion
  | _, [] => ([], [])
  | i, m :: ms =>
    let s1 := stepPlayer dt (roll i) m
    let rest := playerPhase dt roll (i + 1) ms
    (s1.1 :: rest.1, s1.2.toList ++ rest.2)

-- --- Phase 3: enemy missiles and structure damage ---

/-- A debris explosion spawned at a destroyed structure's position. -/
def debrisAt (x y : ℚ) : Explosion :=
  { x := x, y := y, active := true, radius := 0, maxRadius := 50,
    duration := 1000, age := 0 }

/-- The structure-damage test of the source: `distance(m, structure) < 35`
with `(px, py)` the impact position of the missile. -/
def hitNear (px py x y : ℚ) : Bool := distLtB px py x y 35

/-- The structure-destruction loop restricted to the cities: each active
city within distance 35 of the impact point is deactivated and yields one
debris explosion, in list order. -/
def damageCities (px py : ℚ) : List City → List City × List Explosion
  | [] => ([], [])
  | c :: cs =>
    let rest := damageCities px py cs
    if c.active && hitNear px py c.x c.y then
      ({ c with active := false } :: rest.1, debrisAt c.x c.y :: rest.2)
    else (c :: rest.1, rest.2)

/-- The structure-destruction loop restricted to the towers. -/
def damageTowers (px py : ℚ) : List Tower → List Tower × List Explosion
  | [] => ([], [])
  | t :: ts =>
    let rest := damageTowers px py ts
    if t.active && hitNear px py t.x t.y then
      ({ t with active := false } :: rest.1, debrisAt t.x t.y :: rest.2)
    else (t :: rest.1, rest.2)

/-- One enemy missile step: advance `progress` by `speed * dt * 0.005`,
always recompute the interpolated position (even past the target when
`progress` overshoots 1), maybe push a trail point, and on `progress ≥ 1`
deactivate, emit the enemy impact explosion at the current position and
run the structure-destruction loop (cities first, then towers, matching
the source's `[...s.cities, ...s.towers]` spread order). -/
def stepEnemy (dt r : ℚ) (m : Missile) (cs : List City) (ts : List Tower) :
    Missile × List City × List Tower × List Explosion :=
  if !m.active then (m, cs, ts, []) else
  let prog := m.progress + m.speed * dt * 0.005
  let nx := m.startX + (m.targetX - m.startX) * prog
  let ny := m.startY + (m.targetY - m.startY) * prog
  let tr := if 0.7 < r then capPush 5 m.trail ⟨nx, ny⟩ else m.trail
  if 1 ≤ prog then
    let dc := damageCities nx ny cs
    let dw := damageTowers nx ny ts
    ({ m with progress := prog, x := nx, y := ny, trail := tr, active := false },
     dc.1, dw.1,
     { x := nx, y := ny, active := true, radius := 0, maxRadius := 40,
       duration := 800, age := 0 } :: (dc.2 ++ dw.2))
  else
    ({ m with progress := prog, x := nx, y := ny, trail := tr }, cs, ts, [])

/-- The `forEach` over enemy missiles, threading the (mutably shared)
cities and towers and collecting the pushed explosions in push order. -/
def enemyPhase (dt : ℚ) (roll : ℕ → ℚ) :
    ℕ → List Missile → List City → List Tower →
    List Missile × List City × List Tower × List Explosion
  | _, [], cs, ts => ([], cs, ts, [])
  | i, m :: ms, cs, ts =>
    let s1 := stepEnemy dt (roll i) m cs ts
    let rest := enemyPhase dt roll (i + 1) ms s1.2.1 s1.2.2.1
    (s1.1 :: rest.1, rest.2.1, rest.2.2.1, s1.2.2.2 ++ rest.2.2.2)

-- --- Phase 4: explosions and interception ---

/-- The interception test of the source's collision loop: the missile is
active and strictly inside the explosion's current radius. -/
def hitByBlast (e : Explosion) (m : Missile) : Bool :=
  m.active && distLtB m.x m.y e.x e.y e.radius

/-- The secondary explosion spawned at an intercepted missile's position. -/
def mkSecondary (m : Missile) : Explosion :=
  { x := m.x, y := m.y, active := true, radius := 0, maxRadius := 30,
    duration := 600, age := 0 }

/-- The inner `forEach` over enemy missiles for one active explosion:
every hit missile is deactivated, 20 points are scored and one secondary
explosion is pushed. -/
def interceptPass (e : Explosion) : List Missile → ℤ → List Missile × ℤ × List Explosion
  | [], sc => ([], sc, [])
  | m :: ms, sc =>
    if hitByBlast e m then
      let rest := interceptPass e ms (sc + 20)
      ({ m with active := false } :: rest.1, rest.2.1, mkSecondary m :: rest.2.2)
    else
      let rest := interceptPass e ms sc
      (m :: rest.1, rest.2.1, rest.2.2)

/-- The `forEach` over the explosions present when the loop starts (newly
pushed secondaries are appended and, per JavaScript `forEach` semantics,
not themselves visited): skip inactive ones, age each by `dt`,
deactivating once `age > duration`, otherwise recompute the radius and run
the interception pass.  Returns (visited explosions, missiles, score,
pushed secondaries in push order). -/
def explosionPhase (dt : ℚ) :
    List Explosion → List Missile → ℤ → List Explosion × List Missile × ℤ × List Explosion
  | [], ms, sc => ([], ms, sc, [])
  | e :: es, ms, sc =>
    if !e.active then
      let rest := explosionPhase dt es ms sc
      (e :: rest.1, rest.2)
    else
      let age := e.age + dt
      if e.duration < age then
        let rest := explosionPhase dt es ms sc
        ({ e with age := age, active := false } :: rest.1, rest.2)
      else
        let e2 := { e with age := age, radius := radiusAt e.maxRadius e.duration age }
        let ip := interceptPass e2 ms sc
        let rest := explosionPhase dt es ip.1 ip.2.1
        (e2 :: rest.1, rest.2.1, rest.2.2.1, ip.2.2 ++ rest.2.2.2)

-- --- Phases 5 and 6: cleanup and end-game check ---

/-- Phase 5: prune all inactive missiles and explosions. -/
def cleanup (st : GameSt) : GameSt :=
  { st with
    playerMissiles := st.playerMissiles.filter (·.active),
    enemyMissiles := st.enemyMissiles.filter (·.active),
    explosions := st.explosions.filter (·.active) }

/-- Phase 6: defeat when no tower is active, else victory when the score
reached `WIN_SCORE`; the `gameState === 'playing'` conjunct of the source
reads the closure value captured at the start of the tick, passed here as
`gs0`. -/
def endGame (gs0 : GState) (st : GameSt) : GameSt :=
  let activeTowers := (st.towers.filter (·.active)).length
  if activeTowers = 0 then { st with gameState := GState.defeat }
  else if WIN_SCORE ≤ st.score ∧ gs0 = GState.playing then
    { st with gameState := GState.victory }
  else st

/-- One tick of the source's `update` (with `dt` already computed from the
frame timestamps): early return unless playing, then phases 1–6 in source
order. -/
def update (dt : ℚ) (env : Env) (st : GameSt) : GameSt :=
  if st.gameState ≠ GState.playing then st else
  let s1 := spawnOrWave dt env st
  let pp := playerPhase dt env.pRoll 0 s1.playerMissiles
  let ep := enemyPhase dt env.eRoll 0 s1.enemyMissiles s1.cities s1.towers
  let xp := explosionPhase dt (s1.explosions ++ pp.2 ++ ep.2.2.2) ep.1 s1.score
  let s5 := cleanup { s1 with
    playerMissiles := pp.1,
    enemyMissiles := xp.2.1,
    cities := ep.2.1,
    towers := ep.2.2.1,
    explosions := xp.1 ++ xp.2.2.2,
    score := xp.2.2.1 }
  endGame st.gameState s5

/-- Modelled from the spec sentence that orders a tick as
`spawn/update/collide → wave-complete check → defeat/victory check`: the
same phase functions as `update`, but with the wave-complete check run
after motion, collision and cleanup rather than as the `else` branch of
the spawn conditional.  Used only to compare the spec's claimed ordering
against the source's. -/
def updateSpecOrdered (dt : ℚ) (env : Env) (st : GameSt) : GameSt :=
  if st.gameState ≠ GState.playing then st else
  let s1 := if st.enemiesSpawned < st.enemiesToSpawn then spawnStep dt env st else st
  let pp := playerPhase dt env.pRoll 0 s1.playerMissiles
  let ep := enemyPhase dt env.eRoll 0 s1.enemyMissiles s1.cities s1.towers
  let xp := explosionPhase dt (s1.explosions ++ pp.2 ++ ep.2.2.2) ep.1 s1.score
  let s5 := cleanup { s1 with
    playerMissiles := pp.1,
    enemyMissiles := xp.2.1,
    cities := ep.2.1,
    towers := ep.2.2.1,
    explosions := xp.1 ++ xp.2.2.2,
    score := xp.2.2.1 }
  let s6 := if s5.enemiesSpawned < s5.enemiesToSpawn then s5 else waveStep s5
  endGame st.gameState s6

-- --- Input: fire ---

/-- A tower eligible to fire: active with positive ammo. -/
def eligTower (t : Tower) : Bool := t.active && decide (0 < t.ammo)

/-- The closest-tower scan of `handleInput`: the source tracks
`minDist = Math.sqrt(distSq)` starting at `Infinity`, so the first
eligible tower always wins and a later one only on a strictly smaller
distance; square-root monotonicity lets us compare squared distances. -/
def findBestGo (tx ty : ℚ) : ℕ → Option (ℕ × Tower) → List Tower → Option (ℕ × Tower)
  | _, acc, [] => acc
  | i, acc, t :: ts =>
    let better :=
      match acc with
      | none => true
      | some ib => decide (distSq t.x t.y tx ty < distSq ib.2.x ib.2.y tx ty)
    findBestGo tx ty (i + 1) (if eligTower t && better then some (i, t) else acc) ts

/-- The selected tower (with its index) for a fire call at `(tx, ty)`. -/
def findBest (tx ty : ℚ) (ts : List Tower) : Option (ℕ × Tower) :=
  findBestGo tx ty 0 none ts

/-- In-place decrement of the selected tower's ammo (the source mutates
the tower object held by reference in `s.towers`). -/
def decAmmoAt : ℕ → List Tower → List Tower
  | _, [] => []
  | 0, t :: ts => { t with ammo := t.ammo - 1 } :: ts
  | n + 1, t :: ts => t :: decAmmoAt n ts

/-- The core of `handleInput` after mapping client coordinates into the
logical 800x600 space: no-op unless playing, no-op for targets below the
guard line `GAME_HEIGHT - GROUND_HEIGHT + 10`, otherwise pick the closest
eligible tower, decrement its ammo and push one player missile launched 30
units above it with speed 0.02. -/
def fire (targetX targetY : ℚ) (st : GameSt) : GameSt :=
  if st.gameState ≠ GState.playing then st
  else if GAME_HEIGHT - GROUND_HEIGHT + 10 < targetY then st
  else
    match findBest targetX targetY st.towers with
    | none => st
    | some ib =>
      { st with
        towers := decAmmoAt ib.1 st.towers,
        playerMissiles := st.playerMissiles ++
          [{ x := ib.2.x, y := ib.2.y - 30, active := true,
             startX := ib.2.x, startY := ib.2.y - 30,
             targetX := targetX, targetY := targetY,
             speed := 0.02, progress := 0, trail := [] }] }

-- --- Session lifecycle ---

/-- The three towers created by `initGame` (ammo 20 / 40 / 20). -/
def initTowers : List Tower :=
  [ { x := GAME_WIDTH * 0.1, y := GAME_HEIGHT - GROUND_HEIGHT + 10, active := true,
      ammo := 20, maxAmmo := 20 },
    { x := GAME_WIDTH * 0.5, y := GAME_HEIGHT - GROUND_HEIGHT + 10, active := true,
      ammo := 40, maxAmmo := 40 },
    { x := GAME_WIDTH * 0.9, y := GAME_HEIGHT - GROUND_HEIGHT + 10, active := true,
      ammo := 20, maxAmmo := 20 } ]

/-- The six cities created by `initGame`. -/
def initCities : List City :=
  [ { x := GAME_WIDTH * 0.2, y := GAME_HEIGHT - GROUND_HEIGHT + 15, active := true },
    { x := GAME_WIDTH * 0.3, y := GAME_HEIGHT - GROUND_HEIGHT + 15, active := true },
    { x := GAME_WIDTH * 0.4, y := GAME_HEIGHT - GROUND_HEIGHT + 15, active := true },
    { x := GAME_WIDTH * 0.6, y := GAME_HEIGHT - GROUND_HEIGHT + 15, active := true },
    { x := GAME_WIDTH * 0.7, y := GAME_HEIGHT - GROUND_HEIGHT + 15, active := true },
    { x := GAME_WIDTH * 0.8, y := GAME_HEIGHT - GROUND_HEIGHT + 15, active := true } ]

/-- The source's `initGame(resetScore)`: optionally reset the session
counters, then rebuild all entities and enter `playing`. -/
def initGame (resetScore : Bool) (st : GameSt) : GameSt :=
  let s1 :=
    if resetScore then
      { st with score := 0, wave := 1, enemySpeedMultiplier := 1, enemiesToSpawn := 10 }
    else st
  { s1 with
    towers := initTowers, cities := initCities,
    playerMissiles := [], enemyMissiles := [], explosions := [],
    spawnTimer := 0, enemiesSpawned := 0,
    spawnInterval := max 500 (2500 - (s1.wave : ℚ) * 200),
    gameState := GState.playing }

/-- The source's `startNextWave`: advance the wave, speed up enemies,
recompute the spawn budget and interval, refill every active tower's ammo
to its max, clear the entity lists and resume playing. -/
def startNextWave (st : GameSt) : GameSt :=
  let wave := st.wave + 1
  { st with
    wave := wave,
    enemySpeedMultiplier := st.enemySpeedMultiplier + 0.15,
    enemiesToSpawn := 10 + wave * 2,
    enemiesSpawned := 0,
    spawnInterval := max 400 (2500 - (wave : ℚ) * 150),
    towers := st.towers.map (fun t => if t.active then { t with ammo := t.maxAmmo } else t),
    playerMissiles := [], enemyMissiles := [], explosions := [],
    gameState := GState.playing }

-- --- Derived predicates used by the theorems ---

/-- The wave-complete firing condition of phase 1. -/
def waveFires (st : GameSt) : Bool :=
  !decide (st.enemiesSpawned < st.enemiesToSpawn) &&
    st.enemyMissiles.isEmpty && st.explosions.isEmpty

/-- Tower-ammo invariant: every tower satisfies `0 ≤ ammo ≤ maxAmmo`. -/
def AmmoInv (st : GameSt) : Prop := ∀ t ∈ st.towers, 0 ≤ t.ammo ∧ t.ammo ≤ t.maxAmmo

-- --- C7: explosion lifecycle and the triangular radius envelope ---

lemma radiusAt_zero (M d : ℚ) (hd : 0 < d) : radiusAt M d 0 = 0 := by
  have h2 : (0 : ℚ) < d / 2 := by positivity
  simp [radiusAt, h2]

lemma radiusAt_half (M d : ℚ) : radiusAt M d (d / 2) = M := by
  simp [radiusAt]

lemma radiusAt_end (M d : ℚ) (hd : 0 < d) : radiusAt M d d = 0 := by
  have h2 : (0 : ℚ) < d / 2 := by positivity
  have hnot : ¬ d < d / 2 := by linarith
  have hself : (d - d / 2) / (d / 2) = 1 := by
    rw [show d - d / 2 = d / 2 by ring]
    exact div_self (ne_of_gt h2)
  simp [radiusAt, hnot, hself]

lemma radiusAt_mono (M d : ℚ) (hd : 0 < d) (hM : 0 ≤ M) {a b : ℚ}
    (_ : 0 ≤ a) (hab : a ≤ b) (hb : b ≤ d / 2) :
    radiusAt M d a ≤ radiusAt M d b := by
  have h2 : (0 : ℚ) < d / 2 := by positivity
  simp only [radiusAt]
  by_cases hbl : b < d / 2
  · have hal : a < d / 2 := lt_of_le_of_lt hab hbl
    simp only [hal, hbl, if_pos]
    gcongr
  · have hbe : b = d / 2 := le_antisymm hb (not_lt.mp hbl)
    rw [if_neg hbl, hbe, sub_self, zero_div, sub_zero, one_mul]
    by_cases hal : a < d / 2
    · rw [if_pos hal]
      have h1 : a / (d / 2) ≤ 1 := (div_le_one h2).mpr (by linarith)
      calc a / (d / 2) * M ≤ 1 * M := mul_le_mul_of_nonneg_right h1 hM
        _ = M := one_mul M
    · have hae : a = d / 2 := le_antisymm (hbe ▸ hab) (not_lt.mp hal)
      rw [if_neg hal, hae, sub_self, zero_div, sub_zero, one_mul]

lemma radiusAt_anti (M d : ℚ) (hd : 0 < d) (hM : 0 ≤ M) {a b : ℚ}
    (ha : d / 2 ≤ a) (hab : a ≤ b) (_ : b ≤ d) :
    radiusAt M d b ≤ radiusAt M d a := by
  have h2 : (0 : ℚ) < d / 2 := by positivity
  have hna : ¬ a < d / 2 := not_lt.mpr ha
  have hnb : ¬ b < d / 2 := not_lt.mpr (le_trans ha hab)
  unfold radiusAt
  simp only [hna, hnb, if_neg, not_false_iff]
  gcongr

lemma radiusAt_nonneg (M d : ℚ) (hd : 0 < d) (hM : 0 ≤ M) {a : ℚ}
    (ha : 0 ≤ a) (had : a ≤ d) : 0 ≤ radiusAt M d a := by
  have h2 : (0 : ℚ) < d / 2 := by positivity
  unfold radiusAt
  by_cases hal : a < d / 2
  · simp only [hal, if_pos]
    positivity
  · simp only [hal, if_neg, not_false_iff]
    have h1 : (a - d / 2) / (d / 2) ≤ 1 := (div_le_one h2).mpr (by linarith)
    nlinarith [sub_nonneg.mpr h1]

/-- C7: each tick an explosion's age increases by `dt` and it deactivates
exactly when the age exceeds the duration, otherwise its radius follows
the triangular envelope; the envelope is 0 at age 0, `maxRadius` at
`duration / 2`, 0 again at `duration`, monotonically increasing on
`[0, duration / 2]`, decreasing on `[duration / 2, duration]`, and never
negative on `[0, duration]`. -/
theorem C7_explosion_envelope (dt M d : ℚ) (hd : 0 < d) (hM : 0 ≤ M) :
    (∀ (e : Explosion) (es : List Explosion) (ms : List Missile) (sc : ℤ),
        e.active = true →
        (explosionPhase dt (e :: es) ms sc).1.head? =
          some (if e.duration < e.age + dt then
                  { e with age := e.age + dt, active := false }
                else
                  { e with age := e.age + dt,
                           radius := radiusAt e.maxRadius e.duration (e.age + dt) })) ∧
    radiusAt M d 0 = 0 ∧
    radiusAt M d (d / 2) = M ∧
    radiusAt M d d = 0 ∧
    (∀ a b : ℚ, 0 ≤ a → a ≤ b → b ≤ d / 2 → radiusAt M d a ≤ radiusAt M d b) ∧
    (∀ a b : ℚ, d / 2 ≤ a → a ≤ b → b ≤ d → radiusAt M d b ≤ radiusAt M d a) ∧
    (∀ a : ℚ, 0 ≤ a → a ≤ d → 0 ≤ radiusAt M d a) := by
  refine ⟨?_, radiusAt_zero M d hd, radiusAt_half M d, radiusAt_end M d hd,
    fun a b ha hab hb => radiusAt_mono M d hd hM ha hab hb,
    fun a b ha hab hb => radiusAt_anti M d hd hM ha hab hb,
    fun a ha had => radiusAt_nonneg M d hd hM ha had⟩
  intro e es ms sc hact
  by_cases hexp : e.duration < e.age + dt
  · simp [explosionPhase, hact, hexp]
  · simp [explosionPhase, hact, hexp]

-- --- C4: explosion-vs-enemy-missile interception ---

/-- What one interception pass does to a single missile: deactivate it
when it is hit, leave it unchanged otherwise. -/
def applyHit (e : Explosion) (m : Missile) : Missile :=
  if hitByBlast e m then { m with active := false } else m

lemma interceptPass_eq (e : Explosion) :
    ∀ (ms : List Missile) (sc : ℤ),
      interceptPass e ms sc =
        (ms.map (applyHit e),
         sc + 20 * (ms.countP (hitByBlast e) : ℤ),
         (ms.filter (hitByBlast e)).map mkSecondary)
  | [], sc => by simp [interceptPass]
  | m :: ms, sc => by
    by_cases h : hitByBlast e m
    · simp [interceptPass, h, interceptPass_eq e ms (sc + 20), applyHit,
        List.countP_cons, List.filter_cons]
      ring
    · simp [interceptPass, h, interceptPass_eq e ms sc, applyHit,
        List.countP_cons, List.filter_cons]

lemma countP_active_applyHit (e : Explosion) (ms : List Missile) :
    ms.countP (fun m => m.active) =
      (ms.map (applyHit e)).countP (fun m => m.active) +
        ms.countP (hitByBlast e) := by
  induction ms with
  | nil => simp
  | cons m ms ih =>
    by_cases h : hitByBlast e m
    · have hact : m.active = true := by
        have := h
        simp [hitByBlast, Bool.and_eq_true] at this
        exact this.1
      simp [List.countP_cons, applyHit, h, hact, ih]
      ring
    · by_cases hact : m.active
      · simp [List.countP_cons, applyHit, h, hact, ih]
        omega
      · simp [List.countP_cons, applyHit, h, hact, ih]

/-- C4: for each explosion of the per-tick collision pass, the inner loop
over enemy missiles deactivates exactly the active missiles strictly
inside the explosion's current radius, credits 20 points for each, and
spawns one secondary explosion with `maxRadius = 30` and `duration = 600`
at each such missile's position; an already-inactive missile is never hit
again or re-credited, which bounds destruction and credit to once per
missile per tick. -/
theorem C4_interception (e : Explosion) (ms : List Missile) (sc : ℤ) :
    interceptPass e ms sc =
      (ms.map (applyHit e),
       sc + 20 * (ms.countP (hitByBlast e) : ℤ),
       (ms.filter (hitByBlast e)).map mkSecondary) ∧
    (∀ m : Missile, hitByBlast e m = true →
       m.active = true ∧ distLtB m.x m.y e.x e.y e.radius = true ∧
       applyHit e m = { m with active := false } ∧
       mkSecondary m = { x := m.x, y := m.y, active := true, radius := 0,
                         maxRadius := 30, duration := 600, age := 0 }) ∧
    (∀ m : Missile, m.active = false →
       hitByBlast e m = false ∧ applyHit e m = m) := by
  refine ⟨interceptPass_eq e ms sc, ?_, ?_⟩
  · intro m hm
    have hm2 := hm
    simp only [hitByBlast, Bool.and_eq_true] at hm2
    exact ⟨hm2.1, hm2.2, by simp [applyHit, hm], rfl⟩
  · intro m hm
    have : hitByBlast e m = false := by simp [hitByBlast, hm]
    exact ⟨this, by simp [applyHit, this]⟩

/-- Concrete explosion and missiles for the C4 witness: the first missile
is inside the blast, the second is active but outside, the third is
already inactive. -/
def exC4 : Explosion :=
  { x := 100, y := 100, active := true, radius := 20, maxRadius := 40,
    duration := 800, age := 400 }

def mC4a : Missile :=
  { x := 110, y := 100, active := true, startX := 0, startY := 0,
    targetX := 200, targetY := 200, speed := 1, progress := 0, trail := [] }

def mC4b : Missile :=
  { x := 300, y := 100, active := true, startX := 0, startY := 0,
    targetX := 200, targetY := 200, speed := 1, progress := 0, trail := [] }

def mC4c : Missile := { mC4a with active := false }

theorem C4_interception_witness :
    interceptPass exC4 [mC4a, mC4b, mC4c] 0 =
      ([{ mC4a with active := false }, mC4b, mC4c], 20, [mkSecondary mC4a]) ∧
    applyHit exC4 mC4c = mC4c := by
  have h := C4_interception exC4 [mC4a, mC4b, mC4c] 0
  have hhita : hitByBlast exC4 mC4a = true := by
    norm_num [hitByBlast, mC4a, exC4, distLtB, distSq]
  have hhitb : hitByBlast exC4 mC4b = false := by
    norm_num [hitByBlast, mC4b, exC4, distLtB, distSq]
  have hc := (h.2.2 mC4c rfl)
  refine ⟨?_, hc.2⟩
  rw [h.1]
  simp [hhita, hhitb, hc.1, applyHit, hc.2]

-- --- Score accounting of the collision pass (shared by C4/C9 reasoning) ---

lemma explosionPhase_cons_live (dt : ℚ) (e e2 : Explosion) (es : List Explosion)
    (ms : List Missile) (sc : ℤ) (hact : e.active = true)
    (hexp : ¬ e.duration < e.age + dt)
    (he2 : e2 = { e with age := e.age + dt, radius := radiusAt e.maxRadius e.duration (e.age + dt) }) :
    explosionPhase dt (e :: es) ms sc =
      (e2 :: (explosionPhase dt es (ms.map (applyHit e2))
                (sc + 20 * (ms.countP (hitByBlast e2) : ℤ))).1,
       (explosionPhase dt es (ms.map (applyHit e2))
                (sc + 20 * (ms.countP (hitByBlast e2) : ℤ))).2.1,
       (explosionPhase dt es (ms.map (applyHit e2))
                (sc + 20 * (ms.countP (hitByBlast e2) : ℤ))).2.2.1,
       (ms.filter (hitByBlast e2)).map mkSecondary ++
         (explosionPhase dt es (ms.map (applyHit e2))
                (sc + 20 * (ms.countP (hitByBlast e2) : ℤ))).2.2.2) := by
  subst he2
  simp [explosionPhase, hact, hexp, interceptPass_eq]

lemma explosionPhase_score (dt : ℚ) :
    ∀ (es : List Explosion) (ms : List Missile) (sc : ℤ),
      (explosionPhase dt es ms sc).2.1.countP (fun m => m.active) ≤
          ms.countP (fun m => m.active) ∧
      (explosionPhase dt es ms sc).2.2.1 =
        sc + 20 * ((ms.countP (fun m => m.active) : ℤ) -
          ((explosionPhase dt es ms sc).2.1.countP (fun m => m.active) : ℤ))
  | [], ms, sc => by simp [explosionPhase]
  | e :: es, ms, sc => by
    by_cases hact : e.active
    · by_cases hexp : e.duration < e.age + dt
      · have ih := explosionPhase_score dt es ms sc
        simpa [explosionPhase, hact, hexp] using ih
      · rw [explosionPhase_cons_live dt e _ es ms sc hact hexp rfl]
        dsimp only
        set E : Explosion := { e with age := e.age + dt, radius := radiusAt e.maxRadius e.duration (e.age + dt) } with hE
        have hcnt := countP_active_applyHit E ms
        have ih := explosionPhase_score dt es (ms.map (applyHit E))
          (sc + 20 * (ms.countP (hitByBlast E) : ℤ))
        refine ⟨le_trans ih.1 (by omega), ?_⟩
        rw [ih.2]
        have hcnt2 : (ms.countP (fun m => m.active) : ℤ) =
            ((ms.map (applyHit E)).countP (fun m => m.active) : ℤ) +
              (ms.countP (hitByBlast E) : ℤ) := by exact_mod_cast hcnt
        omega
    · have ih := explosionPhase_score dt es ms sc
      simpa [explosionPhase, hact] using ih

-- --- C1: missile detonation on progress ≥ 1 ---

/-- The progress of an enemy missile after one tick. -/
def impactProg (dt : ℚ) (m : Missile) : ℚ := m.progress + m.speed * dt * 0.005

/-- The x-coordinate at which an enemy missile detonates: the linear
interpolation at the updated progress, which can overshoot the target
when the progress jumps past 1. -/
def impactX (dt : ℚ) (m : Missile) : ℚ :=
  m.startX + (m.targetX - m.startX) * impactProg dt m

/-- The y-coordinate at which an enemy missile detonates. -/
def impactY (dt : ℚ) (m : Missile) : ℚ :=
  m.startY + (m.targetY - m.startY) * impactProg dt m

lemma damageCities_debris (px py : ℚ) :
    ∀ (cs : List City), ∀ x ∈ (damageCities px py cs).2, ∃ cx cy, x = debrisAt cx cy
  | [], x, hx => by simp [damageCities] at hx
  | c :: cs, x, hx => by
    by_cases h : c.active && hitNear px py c.x c.y
    · simp only [damageCities, h, if_pos, List.mem_cons] at hx
      rcases hx with hx | hx
      · exact ⟨c.x, c.y, hx⟩
      · exact damageCities_debris px py cs x hx
    · simp only [damageCities, h, if_neg, not_false_iff, Bool.false_eq_true, ite_false] at hx
      exact damageCities_debris px py cs x hx

lemma damageTowers_debris (px py : ℚ) :
    ∀ (ts : List Tower), ∀ x ∈ (damageTowers px py ts).2, ∃ cx cy, x = debrisAt cx cy
  | [], x, hx => by simp [damageTowers] at hx
  | t :: ts, x, hx => by
    by_cases h : t.active && hitNear px py t.x t.y
    · simp only [damageTowers, h, if_pos, List.mem_cons] at hx
      rcases hx with hx | hx
      · exact ⟨t.x, t.y, hx⟩
      · exact damageTowers_debris px py ts x hx
    · simp only [damageTowers, h, if_neg, not_false_iff, Bool.false_eq_true, ite_false] at hx
      exact damageTowers_debris px py ts x hx

/-- C1 (amended): a player missile whose progress reaches or exceeds 1
during a tick is deactivated and produces exactly one impact explosion
with `maxRadius = 70`, `duration = 1200`, placed at its target point; an
enemy missile whose progress reaches or exceeds 1 is deactivated and
produces exactly one impact explosion with `maxRadius = 40`,
`duration = 800`, placed at the missile's interpolated position at the
updated progress — which overshoots the target point whenever the
progress strictly exceeds 1 — followed only by debris explosions
(`maxRadius = 50`, `duration = 1000`). -/
theorem C1_impact_explosions (dt r : ℚ) (m : Missile) (cs : List City) (ts : List Tower)
    (hact : m.active = true) :
    (1 ≤ m.progress + m.speed * dt →
      (stepPlayer dt r m).1.active = false ∧
      (stepPlayer dt r m).2 =
        some { x := m.targetX, y := m.targetY, active := true, radius := 0,
               maxRadius := 70, duration := 1200, age := 0 }) ∧
    (1 ≤ impactProg dt m →
      (stepEnemy dt r m cs ts).1.active = false ∧
      ∃ debris,
        (stepEnemy dt r m cs ts).2.2.2 =
          { x := impactX dt m, y := impactY dt m, active := true, radius := 0,
            maxRadius := 40, duration := 800, age := 0 } :: debris ∧
        ∀ x ∈ debris, x.maxRadius = 50 ∧ x.duration = 1000) := by
  constructor
  · intro h
    simp [stepPlayer, hact, h]
  · intro h
    rw [impactProg] at h
    refine ⟨by simp [stepEnemy, hact, h], ?_⟩
    refine ⟨(damageCities (impactX dt m) (impactY dt m) cs).2 ++
      (damageTowers (impactX dt m) (impactY dt m) ts).2, ?_, ?_⟩
    · simp [stepEnemy, hact, h, impactX, impactY, impactProg]
    · intro x hx
      rcases List.mem_append.mp hx with hx | hx
      · obtain ⟨cx, cy, rfl⟩ :=
          damageCities_debris (impactX dt m) (impactY dt m) cs x hx
        exact ⟨rfl, rfl⟩
      · obtain ⟨cx, cy, rfl⟩ :=
          damageTowers_debris (impactX dt m) (impactY dt m) ts x hx
        exact ⟨rfl, rfl⟩

/-- A concrete enemy missile whose progress overshoots 1 in one tick:
progress 0.6, speed 100, so with dt = 1 the progress becomes 1.1 and the
interpolated detonation point is (110, 110), not the target (100, 100). -/
def mC1 : Missile :=
  { x := 0, y := 0, active := true, startX := 0, startY := 0,
    targetX := 100, targetY := 100, speed := 100, progress := 0.6, trail := [] }

/-- Counterexample to C1 as stated: the single impact explosion created
when mC1's progress reaches 1 is placed at (110, 110), which is not the
missile's target point (100, 100). -/
theorem C1_counterexample :
    ((stepEnemy 1 0 mC1 [] []).2.2.2.map (fun e => (e.x, e.y))) = [((110 : ℚ), (110 : ℚ))] ∧
    (mC1.targetX, mC1.targetY) = ((100 : ℚ), (100 : ℚ)) ∧
    ((stepEnemy 1 0 mC1 [] []).2.2.2.map (fun e => (e.x, e.y))) ≠
      [(mC1.targetX, mC1.targetY)] := by
  refine ⟨?_, rfl, ?_⟩ <;>
    norm_num [stepEnemy, mC1, damageCities, damageTowers, capPush]

/-- A concrete player missile for the C1 witness. -/
def mC1p : Missile :=
  { x := 400, y := 400, active := true, startX := 400, startY := 540,
    targetX := 300, targetY := 200, speed := 0.02, progress := 0.9, trail := [] }

theorem C1_impact_explosions_witness :
    (stepPlayer 10 0 mC1p).1.active = false ∧
    (stepPlayer 10 0 mC1p).2 =
      some { x := mC1p.targetX, y := mC1p.targetY, active := true, radius := 0,
             maxRadius := 70, duration := 1200, age := 0 } ∧
    (stepEnemy 1 0 mC1 [] []).1.active = false := by
  have hp := C1_impact_explosions 10 0 mC1p [] [] rfl
  have he := C1_impact_explosions 1 0 mC1 [] [] rfl
  have hp1 := hp.1 (by norm_num [mC1p])
  have he1 := he.2 (by norm_num [impactProg, mC1])
  exact ⟨hp1.1, hp1.2, he1.1⟩

-- --- C6: enemy-impact structure damage ---

lemma damageCities_eq (px py : ℚ) :
    ∀ (cs : List City),
      damageCities px py cs =
        (cs.map (fun c => if c.active && hitNear px py c.x c.y then
            { c with active := false } else c),
         (cs.filter (fun c => c.active && hitNear px py c.x c.y)).map
           (fun c => debrisAt c.x c.y))
  | [] => by simp [damageCities]
  | c :: cs => by
    by_cases h : c.active && hitNear px py c.x c.y
    · have h2 := h
      simp only [Bool.and_eq_true] at h2
      simp [damageCities, h, damageCities_eq px py cs, List.filter_cons, h2.1, h2.2]
    · have h2 : ¬ (c.active = true ∧ hitNear px py c.x c.y = true) := by
        simpa [Bool.and_eq_true] using h
      simp [damageCities, h, damageCities_eq px py cs, List.filter_cons, h2]

lemma damageTowers_eq (px py : ℚ) :
    ∀ (ts : List Tower),
      damageTowers px py ts =
        (ts.map (fun t => if t.active && hitNear px py t.x t.y then
            { t with active := false } else t),
         (ts.filter (fun t => t.active && hitNear px py t.x t.y)).map
           (fun t => debrisAt t.x t.y))
  | [] => by simp [damageTowers]
  | t :: ts => by
    by_cases h : t.active && hitNear px py t.x t.y
    · have h2 := h
      simp only [Bool.and_eq_true] at h2
      simp [damageTowers, h, damageTowers_eq px py ts, List.filter_cons, h2.1, h2.2]
    · have h2 : ¬ (t.active = true ∧ hitNear px py t.x t.y = true) := by
        simpa [Bool.and_eq_true] using h
      simp [damageTowers, h, damageTowers_eq px py ts, List.filter_cons, h2]

/-- C6: when an enemy missile's progress reaches 1, every active structure
(city or tower) strictly within Euclidean distance 35 of the impact point
is deactivated and yields exactly one debris explosion
(`maxRadius = 50`, `duration = 1000`) at the structure's position; every
other structure is unchanged; the total number of explosions created by
the impact is one (the impact explosion) plus one per destroyed
structure, so several structures can be destroyed by a single impact. -/
theorem C6_structure_damage (dt r : ℚ) (m : Missile) (cs : List City) (ts : List Tower)
    (hact : m.active = true) (himp : 1 ≤ impactProg dt m) :
    (stepEnemy dt r m cs ts).2.1.length = cs.length ∧
    (stepEnemy dt r m cs ts).2.2.1.length = ts.length ∧
    (∀ i c, cs.get? i = some c →
      (c.active = true → hitNear (impactX dt m) (impactY dt m) c.x c.y = true →
        (stepEnemy dt r m cs ts).2.1.get? i = some { c with active := false } ∧
        debrisAt c.x c.y ∈ (stepEnemy dt r m cs ts).2.2.2) ∧
      (¬ (c.active = true ∧ hitNear (impactX dt m) (impactY dt m) c.x c.y = true) →
        (stepEnemy dt r m cs ts).2.1.get? i = some c)) ∧
    (∀ i t, ts.get? i = some t →
      (t.active = true → hitNear (impactX dt m) (impactY dt m) t.x t.y = true →
        (stepEnemy dt r m cs ts).2.2.1.get? i = some { t with active := false } ∧
        debrisAt t.x t.y ∈ (stepEnemy dt r m cs ts).2.2.2) ∧
      (¬ (t.active = true ∧ hitNear (impactX dt m) (impactY dt m) t.x t.y = true) →
        (stepEnemy dt r m cs ts).2.2.1.get? i = some t)) ∧
    (stepEnemy dt r m cs ts).2.2.2.length =
      1 + cs.countP (fun c => c.active && hitNear (impactX dt m) (impactY dt m) c.x c.y)
        + ts.countP (fun t => t.active && hitNear (impactX dt m) (impactY dt m) t.x t.y) := by
  rw [impactProg] at himp
  have hstep : (stepEnemy dt r m cs ts).2 =
      ((damageCities (impactX dt m) (impactY dt m) cs).1,
       (damageTowers (impactX dt m) (impactY dt m) ts).1,
       { x := impactX dt m, y := impactY dt m, active := true, radius := 0,
         maxRadius := 40, duration := 800, age := 0 } ::
         ((damageCities (impactX dt m) (impactY dt m) cs).2 ++
          (damageTowers (impactX dt m) (impactY dt m) ts).2)) := by
    simp [stepEnemy, hact, himp, impactX, impactY, impactProg]
  rw [hstep, damageCities_eq, damageTowers_eq]
  refine ⟨by simp, by simp, ?_, ?_, ?_⟩
  · intro i c hc
    constructor
    · intro hca hhit
      constructor
      · rw [List.get?_map, hc, Option.map_some']
        simp [hca, hhit]
      · have hmem : c ∈ cs := List.get?_mem hc
        have hfil : c ∈ cs.filter
            (fun c => c.active && hitNear (impactX dt m) (impactY dt m) c.x c.y) :=
          List.mem_filter.mpr ⟨hmem, by simp [hca, hhit]⟩
        exact List.mem_cons_of_mem _
          (List.mem_append_left _ (List.mem_map.mpr ⟨c, hfil, rfl⟩))
    · intro hno
      have hbool : (c.active && hitNear (impactX dt m) (impactY dt m) c.x c.y) = false := by
        rcases Bool.eq_false_or_eq_true c.active with h | h
        · rcases Bool.eq_false_or_eq_true
            (hitNear (impactX dt m) (impactY dt m) c.x c.y) with h2 | h2
          · exact absurd ⟨h, h2⟩ hno
          · simp [h2]
        · simp [h]
      rw [List.get?_map, hc, Option.map_some']
      simp [hbool]
  · intro i t ht
    constructor
    · intro hta hhit
      constructor
      · rw [List.get?_map, ht, Option.map_some']
        simp [hta, hhit]
      · have hmem : t ∈ ts := List.get?_mem ht
        have hfil : t ∈ ts.filter
            (fun t => t.active && hitNear (impactX dt m) (impactY dt m) t.x t.y) :=
          List.mem_filter.mpr ⟨hmem, by simp [hta, hhit]⟩
        exact List.mem_cons_of_mem _
          (List.mem_append_right _ (List.mem_map.mpr ⟨t, hfil, rfl⟩))
    · intro hno
      have hbool : (t.active && hitNear (impactX dt m) (impactY dt m) t.x t.y) = false := by
        rcases Bool.eq_false_or_eq_true t.active with h | h
        · rcases Bool.eq_false_or_eq_true
            (hitNear (impactX dt m) (impactY dt m) t.x t.y) with h2 | h2
          · exact absurd ⟨h, h2⟩ hno
          · simp [h2]
        · simp [h]
      rw [List.get?_map, ht, Option.map_some']
      simp [hbool]
  · simp only [List.length_cons, List.length_append, List.length_map,
      List.countP_eq_length_filter]
    omega

/-- A concrete impact scenario for the C6 witness: the missile detonates
exactly at (100, 560); a city 20 away and a tower 20 away are both
destroyed, a second city 100 away survives. -/
def mC6 : Missile :=
  { x := 0, y := 0, active := true, startX := 0, startY := 0,
    targetX := 100, targetY := 560, speed := 100, progress := 0.5, trail := [] }

def cC6a : City := { x := 100, y := 540, active := true }

def cC6b : City := { x := 200, y := 560, active := true }

def tC6 : Tower := { x := 120, y := 560, active := true, ammo := 7, maxAmmo := 20 }

theorem C6_structure_damage_witness :
    (stepEnemy 1 0 mC6 [cC6a, cC6b] [tC6]).2.1.get? 0 = some { cC6a with active := false } ∧
    (stepEnemy 1 0 mC6 [cC6a, cC6b] [tC6]).2.1.get? 1 = some cC6b ∧
    (stepEnemy 1 0 mC6 [cC6a, cC6b] [tC6]).2.2.1.get? 0 = some { tC6 with active := false } ∧
    debrisAt cC6a.x cC6a.y ∈ (stepEnemy 1 0 mC6 [cC6a, cC6b] [tC6]).2.2.2 ∧
    (stepEnemy 1 0 mC6 [cC6a, cC6b] [tC6]).2.2.2.length = 3 := by
  have h := C6_structure_damage 1 0 mC6 [cC6a, cC6b] [tC6] rfl
    (by norm_num [impactProg, mC6])
  have hpx : impactX 1 mC6 = 100 := by norm_num [impactX, impactProg, mC6]
  have hpy : impactY 1 mC6 = 560 := by norm_num [impactY, impactProg, mC6]
  have hhitaL : hitNear (impactX 1 mC6) (impactY 1 mC6) 100 540 = true := by
    rw [hpx, hpy]; norm_num [hitNear, distLtB, distSq]
  have hhitbL : hitNear (impactX 1 mC6) (impactY 1 mC6) 200 560 = false := by
    rw [hpx, hpy]; norm_num [hitNear, distLtB, distSq]
  have hhittL : hitNear (impactX 1 mC6) (impactY 1 mC6) 120 560 = true := by
    rw [hpx, hpy]; norm_num [hitNear, distLtB, distSq]
  have hhita : hitNear (impactX 1 mC6) (impactY 1 mC6) cC6a.x cC6a.y = true := by
    simpa [cC6a] using hhitaL
  have hhitb : hitNear (impactX 1 mC6) (impactY 1 mC6) cC6b.x cC6b.y = false := by
    simpa [cC6b] using hhitbL
  have hhitt : hitNear (impactX 1 mC6) (impactY 1 mC6) tC6.x tC6.y = true := by
    simpa [tC6] using hhittL
  have ha := (h.2.2.1 0 cC6a rfl).1 rfl hhita
  have hb := (h.2.2.1 1 cC6b rfl).2 (by simp [hhitb])
  have ht := (h.2.2.2.1 0 tC6 rfl).1 rfl hhitt
  refine ⟨ha.1, hb, ht.1, ha.2, ?_⟩
  have hlen := h.2.2.2.2
  rw [hlen]
  norm_num [List.countP_cons, cC6a, cC6b, tC6, hhitaL, hhitbL, hhittL]

-- --- C5: the playing → wave_complete transition ---

lemma spawnStep_gameState (dt : ℚ) (env : Env) (st : GameSt) :
    (spawnStep dt env st).gameState = st.gameState := by
  unfold spawnStep
  dsimp only
  split <;> rfl

lemma spawnStep_score (dt : ℚ) (env : Env) (st : GameSt) :
    (spawnStep dt env st).score = st.score := by
  unfold spawnStep
  dsimp only
  split <;> rfl

lemma spawnStep_waveMessage (dt : ℚ) (env : Env) (st : GameSt) :
    (spawnStep dt env st).waveMessage = st.waveMessage := by
  unfold spawnStep
  dsimp only
  split <;> rfl

lemma spawnStep_towers (dt : ℚ) (env : Env) (st : GameSt) :
    (spawnStep dt env st).towers = st.towers := by
  unfold spawnStep
  dsimp only
  split <;> rfl

/-- C5: from the playing state, the wave-complete transition fires in a
tick exactly when the spawn budget is exhausted (`enemiesSpawned =
enemiesToSpawn`, given the invariant `enemiesSpawned ≤ enemiesToSpawn`)
and no enemy missiles and no explosions remain; on firing, the score
increases by the sum over active towers of `ammo * 5` and that bonus is
recorded for display in the wave message. -/
theorem C5_wave_complete (dt : ℚ) (env : Env) (st : GameSt)
    (hplay : st.gameState = GState.playing)
    (hle : st.enemiesSpawned ≤ st.enemiesToSpawn) :
    ((spawnOrWave dt env st).gameState = GState.wave_complete ↔
      st.enemiesSpawned = st.enemiesToSpawn ∧
        st.enemyMissiles = [] ∧ st.explosions = []) ∧
    ((spawnOrWave dt env st).gameState = GState.wave_complete →
      (spawnOrWave dt env st).score = st.score + ammoBonus st.towers ∧
      (spawnOrWave dt env st).waveMessage = ammoBonus st.towers) := by
  by_cases hlt : st.enemiesSpawned < st.enemiesToSpawn
  · have hgs : (spawnOrWave dt env st).gameState = GState.playing := by
      rw [spawnOrWave, if_pos hlt, spawnStep_gameState, hplay]
    constructor
    · rw [hgs]
      constructor
      · intro h
        exact absurd h (by simp)
      · rintro ⟨heq, -⟩
        omega
    · intro h
      rw [hgs] at h
      exact absurd h (by simp)
  · have heq : st.enemiesSpawned = st.enemiesToSpawn := le_antisymm hle (not_lt.mp hlt)
    rw [spawnOrWave, if_neg hlt]
    by_cases hempty : st.enemyMissiles.isEmpty && st.explosions.isEmpty
    · have hem : st.enemyMissiles = [] := by
        have := (Bool.and_eq_true _ _).mp hempty
        exact List.isEmpty_iff.mp this.1
      have hex : st.explosions = [] := by
        have := (Bool.and_eq_true _ _).mp hempty
        exact List.isEmpty_iff.mp this.2
      rw [waveStep, if_pos hempty]
      exact ⟨by simp [heq, hem, hex], fun _ => ⟨rfl, rfl⟩⟩
    · rw [waveStep, if_neg hempty]
      rw [hplay]
      constructor
      · constructor
        · intro h
          exact absurd h (by simp)
        · rintro ⟨-, hem, hex⟩
          rw [hem, hex] at hempty
          simp at hempty
      · intro h
        exact absurd h (by simp)

/-- Concrete wave-complete scenario for the C5 witness: budget 10/10
spawned, no enemies, no explosions, three active towers with ammo
5 / 10 / 0, so the bonus is 75. -/
def stC5 : GameSt :=
  { gameState := GState.playing
    towers := [{ x := 80, y := 570, active := true, ammo := 5, maxAmmo := 20 },
               { x := 400, y := 570, active := true, ammo := 10, maxAmmo := 40 },
               { x := 720, y := 570, active := true, ammo := 0, maxAmmo := 20 }]
    cities := []
    playerMissiles := []
    enemyMissiles := []
    explosions := []
    spawnTimer := 0
    spawnInterval := 2000
    score := 0
    wave := 1
    enemiesToSpawn := 10
    enemiesSpawned := 10
    enemySpeedMultiplier := 1
    waveMessage := 0 }

/-- A fixed environment (random draws) reused by concrete scenarios. -/
def envC : Env :=
  { r1 := 0, r2 := 0, r3 := 1, r4 := 0, r5 := 0,
    pRoll := fun _ => 0, eRoll := fun _ => 0 }

theorem C5_wave_complete_witness :
    (spawnOrWave 16 envC stC5).gameState = GState.wave_complete ∧
    (spawnOrWave 16 envC stC5).score = 75 ∧
    (spawnOrWave 16 envC stC5).waveMessage = 75 := by
  have h := C5_wave_complete 16 envC stC5 rfl (by norm_num [stC5])
  have hgs : (spawnOrWave 16 envC stC5).gameState = GState.wave_complete :=
    h.1.mpr ⟨rfl, rfl, rfl⟩
  have hsc := h.2 hgs
  have hbonus : ammoBonus stC5.towers = 75 := by
    norm_num [ammoBonus, stC5, AMMO_BONUS]
  refine ⟨hgs, ?_, ?_⟩
  · rw [hsc.1, hbonus]
    norm_num [stC5]
  · rw [hsc.2, hbonus]

/-- A concrete explosion used by the C7 witness. -/
def exC7 : Explosion :=
  { x := 0, y := 0, active := true, radius := 0, maxRadius := 40,
    duration := 800, age := 0 }

theorem C7_explosion_envelope_witness :
    radiusAt 40 800 0 = 0 ∧ radiusAt 40 800 400 = 40 ∧ radiusAt 40 800 800 = 0 ∧
    (explosionPhase 16 [exC7] [] 0).1.head? =
      some { exC7 with age := 16, radius := radiusAt 40 800 16 } := by
  have h := C7_explosion_envelope 16 40 800 (by norm_num) (by norm_num)
  refine ⟨h.2.1, ?_, h.2.2.2.1, ?_⟩
  · have := h.2.2.1
    norm_num at this
    exact this
  · have h1 := h.1 exC7 [] [] 0 rfl
    norm_num [exC7] at h1 ⊢
    exact h1

-- --- C3: the fire input operation ---

lemma findBestGo_none (tx ty : ℚ) :
    ∀ (ts : List Tower) (i : ℕ) (acc : Option (ℕ × Tower)),
      findBestGo tx ty i acc ts = none ↔ acc = none ∧ ∀ t ∈ ts, eligTower t = false
  | [], i, acc => by simp [findBestGo]
  | t :: ts, i, acc => by
    simp only [findBestGo]
    by_cases he : eligTower t
    · cases acc with
      | none =>
        rw [if_pos (by simp [he])]
        rw [findBestGo_none tx ty ts (i + 1) (some (i, t))]
        simp [he]
      | some ib =>
        by_cases hb : distSq t.x t.y tx ty < distSq ib.2.x ib.2.y tx ty
        · rw [if_pos (by simp [he, hb])]
          rw [findBestGo_none tx ty ts (i + 1) (some (i, t))]
          simp [he]
        · rw [if_neg (by simp [he, hb])]
          rw [findBestGo_none tx ty ts (i + 1) (some ib)]
          simp [he]
    · rw [if_neg (by simp [he])]
      rw [findBestGo_none tx ty ts (i + 1) acc]
      simp [he]

lemma findBestGo_spec (tx ty : ℚ) :
    ∀ (ts : List Tower) (i : ℕ) (acc : Option (ℕ × Tower)),
      (∀ jb, acc = some jb → eligTower jb.2 = true) →
      ∀ (j : ℕ) (b : Tower), findBestGo tx ty i acc ts = some (j, b) →
      eligTower b = true ∧
      (∀ jb, acc = some jb →
        distSq b.x b.y tx ty ≤ distSq jb.2.x jb.2.y tx ty) ∧
      (∀ t ∈ ts, eligTower t = true →
        distSq b.x b.y tx ty ≤ distSq t.x t.y tx ty) ∧
      (acc = some (j, b) ∨ (i ≤ j ∧ ts.get? (j - i) = some b))
  | [], i, acc => by
    intro hacc j b hres
    simp only [findBestGo] at hres
    subst hres
    refine ⟨hacc (j, b) rfl, ?_, by simp, Or.inl rfl⟩
    intro jb hjb
    cases hjb
    exact le_refl _
  | t :: ts, i, acc => by
    intro hacc j b hres
    simp only [findBestGo] at hres
    have lift : (i + 1 ≤ j ∧ ts.get? (j - (i + 1)) = some b) →
        (i ≤ j ∧ (t :: ts).get? (j - i) = some b) := by
      rintro ⟨h5, h6⟩
      refine ⟨by omega, ?_⟩
      have hidx : j - i = (j - (i + 1)) + 1 := by omega
      rw [hidx]
      simpa using h6
    by_cases he : eligTower t
    · cases acc with
      | none =>
        rw [if_pos (by simp [he])] at hres
        have ih := findBestGo_spec tx ty ts (i + 1) (some (i, t))
          (by rintro jb ⟨rfl⟩; exact he) j b hres
        refine ⟨ih.1, by rintro jb ⟨⟩, ?_, ?_⟩
        · intro u hu heu
          rcases List.mem_cons.mp hu with rfl | hu2
          · exact ih.2.1 (i, u) rfl
          · exact ih.2.2.1 u hu2 heu
        · rcases ih.2.2.2 with hcase | hcase
          · right
            cases hcase
            exact ⟨le_refl _, by simp⟩
          · exact Or.inr (lift hcase)
      | some ib =>
        by_cases hb : distSq t.x t.y tx ty < distSq ib.2.x ib.2.y tx ty
        · rw [if_pos (by simp [he, hb])] at hres
          have ih := findBestGo_spec tx ty ts (i + 1) (some (i, t))
            (by rintro jb ⟨rfl⟩; exact he) j b hres
          have hbt : distSq b.x b.y tx ty ≤ distSq t.x t.y tx ty :=
            ih.2.1 (i, t) rfl
          refine ⟨ih.1, ?_, ?_, ?_⟩
          · rintro jb ⟨rfl⟩
            exact le_trans hbt (le_of_lt hb)
          · intro u hu heu
            rcases List.mem_cons.mp hu with rfl | hu2
            · exact hbt
            · exact ih.2.2.1 u hu2 heu
          · rcases ih.2.2.2 with hcase | hcase
            · right
              cases hcase
              exact ⟨le_refl _, by simp⟩
            · exact Or.inr (lift hcase)
        · rw [if_neg (by simp [he, hb])] at hres
          have ih := findBestGo_spec tx ty ts (i + 1) (some ib) hacc j b hres
          have hbb : distSq b.x b.y tx ty ≤ distSq ib.2.x ib.2.y tx ty :=
            ih.2.1 ib rfl
          refine ⟨ih.1, ?_, ?_, ?_⟩
          · rintro jb ⟨rfl⟩
            exact hbb
          · intro u hu heu
            rcases List.mem_cons.mp hu with rfl | hu2
            · exact le_trans hbb (not_lt.mp hb)
            · exact ih.2.2.1 u hu2 heu
          · rcases ih.2.2.2 with hcase | hcase
            · exact Or.inl hcase
            · exact Or.inr (lift hcase)
    · rw [if_neg (by simp [he])] at hres
      have ih := findBestGo_spec tx ty ts (i + 1) acc hacc j b hres
      refine ⟨ih.1, ih.2.1, ?_, ?_⟩
      · intro u hu heu
        rcases List.mem_cons.mp hu with rfl | hu2
        · exact absurd heu he
        · exact ih.2.2.1 u hu2 heu
      · rcases ih.2.2.2 with hcase | hcase
        · exact Or.inl hcase
        · exact Or.inr (lift hcase)

lemma findBest_none_iff (tx ty : ℚ) (ts : List Tower) :
    findBest tx ty ts = none ↔ ∀ t ∈ ts, eligTower t = false := by
  rw [findBest, findBestGo_none]
  simp

lemma findBest_some (tx ty : ℚ) (ts : List Tower) (j : ℕ) (b : Tower)
    (h : findBest tx ty ts = some (j, b)) :
    eligTower b = true ∧ ts.get? j = some b ∧
      ∀ t ∈ ts, eligTower t = true →
        distSq b.x b.y tx ty ≤ distSq t.x t.y tx ty := by
  have hs := findBestGo_spec tx ty ts 0 none (by rintro jb ⟨⟩) j b h
  refine ⟨hs.1, ?_, hs.2.2.1⟩
  rcases hs.2.2.2 with hcase | hcase
  · cases hcase
  · simpa using hcase.2

lemma decAmmoAt_get? :
    ∀ (n : ℕ) (ts : List Tower) (k : ℕ),
      (decAmmoAt n ts).get? k =
        if k = n then (ts.get? k).map (fun t => { t with ammo := t.ammo - 1 })
        else ts.get? k
  | _, [], k => by simp [decAmmoAt]
  | 0, t :: ts, 0 => by simp [decAmmoAt]
  | 0, t :: ts, k + 1 => by simp [decAmmoAt]
  | n + 1, t :: ts, 0 => by simp [decAmmoAt]
  | n + 1, t :: ts, k + 1 => by
    simp only [decAmmoAt, List.get?_cons_succ]
    rw [decAmmoAt_get? n ts k]
    simp [Nat.succ_eq_add_one]

/-- C3: a fire call is a no-op unless playing; it is a no-op when the
target lies below the guard line (`targetY > GAME_HEIGHT - GROUND_HEIGHT
+ 10`) or when no active tower has positive ammo; otherwise the active
tower with positive ammo at minimal Euclidean distance to the target is
selected (ties broken by first index, compared through squared distances
since the square root is monotone), exactly that tower's ammo is
decremented by exactly 1 (all other towers unchanged), and exactly one
player missile with speed 0.02 is appended, launched from the point 30
units above the selected tower toward the target. -/
theorem C3_fire (targetX targetY : ℚ) (st : GameSt) :
    (st.gameState ≠ GState.playing → fire targetX targetY st = st) ∧
    (GAME_HEIGHT - GROUND_HEIGHT + 10 < targetY → fire targetX targetY st = st) ∧
    (st.gameState = GState.playing →
      (∀ t ∈ st.towers, ¬ (t.active = true ∧ 0 < t.ammo)) →
      fire targetX targetY st = st) ∧
    (st.gameState = GState.playing →
      targetY ≤ GAME_HEIGHT - GROUND_HEIGHT + 10 →
      (∃ t ∈ st.towers, t.active = true ∧ 0 < t.ammo) →
      ∃ j b, findBest targetX targetY st.towers = some (j, b) ∧
        st.towers.get? j = some b ∧ b.active = true ∧ 0 < b.ammo ∧
        (∀ t ∈ st.towers, t.active = true → 0 < t.ammo →
          distSq b.x b.y targetX targetY ≤ distSq t.x t.y targetX targetY) ∧
        fire targetX targetY st =
          { st with
            towers := decAmmoAt j st.towers,
            playerMissiles := st.playerMissiles ++
              [{ x := b.x, y := b.y - 30, active := true, startX := b.x,
                 startY := b.y - 30, targetX := targetX, targetY := targetY,
                 speed := 0.02, progress := 0, trail := [] }] } ∧
        (decAmmoAt j st.towers).get? j = some { b with ammo := b.ammo - 1 } ∧
        (∀ k, k ≠ j → (decAmmoAt j st.towers).get? k = st.towers.get? k)) := by
  have heq : ∀ (t : Tower), eligTower t = true ↔ (t.active = true ∧ 0 < t.ammo) := by
    intro t
    simp [eligTower]
  refine ⟨?_, ?_, ?_, ?_⟩
  · intro h
    rw [fire, if_pos h]
  · intro h
    by_cases hgs : st.gameState ≠ GState.playing
    · rw [fire, if_pos hgs]
    · rw [fire, if_neg hgs, if_pos h]
  · intro hgs hno
    have hnone : findBest targetX targetY st.towers = none := by
      rw [findBest_none_iff]
      intro t ht
      have := hno t ht
      rcases Bool.eq_false_or_eq_true (eligTower t) with h2 | h2
      · exact absurd ((heq t).mp h2) this
      · exact h2
    rw [fire, if_neg (by simp [hgs])]
    by_cases hg : GAME_HEIGHT - GROUND_HEIGHT + 10 < targetY
    · rw [if_pos hg]
    · rw [if_neg hg, hnone]
  · intro hgs hguard hex
    have hnn : findBest targetX targetY st.towers ≠ none := by
      intro hcon
      rcases hex with ⟨t, ht, hta, htp⟩
      have := (findBest_none_iff targetX targetY st.towers).mp hcon t ht
      rw [(heq t).mpr ⟨hta, htp⟩] at this
      cases this
    obtain ⟨jb, hjb⟩ := Option.ne_none_iff_exists'.mp hnn
    obtain ⟨j, b⟩ := jb
    have hs := findBest_some targetX targetY st.towers j b hjb
    have helig := (heq b).mp hs.1
    refine ⟨j, b, hjb, hs.2.1, helig.1, helig.2, ?_, ?_, ?_, ?_⟩
    · intro t ht hta htp
      exact hs.2.2 t ht ((heq t).mpr ⟨hta, htp⟩)
    · rw [fire, if_neg (by simp [hgs]), if_neg (not_lt.mpr hguard), hjb]
    · rw [decAmmoAt_get?, if_pos rfl, hs.2.1, Option.map_some']
    · intro k hk
      rw [decAmmoAt_get?, if_neg hk]

/-- A concrete playing state with the three initial towers
(ammo 20 / 40 / 20) for the C3 witness. -/
def stC3 : GameSt :=
  { gameState := GState.playing
    towers := initTowers
    cities := initCities
    playerMissiles := []
    enemyMissiles := []
    explosions := []
    spawnTimer := 0
    spawnInterval := 2300
    score := 0
    wave := 1
    enemiesToSpawn := 10
    enemiesSpawned := 0
    enemySpeedMultiplier := 1
    waveMessage := 0 }

theorem C3_fire_witness :
    fire 400 650 stC3 = stC3 ∧
    (fire 400 300 stC3).towers.get? 1 =
      some { x := GAME_WIDTH * 0.5, y := GAME_HEIGHT - GROUND_HEIGHT + 10,
             active := true, ammo := 39, maxAmmo := 40 } ∧
    (fire 400 300 stC3).playerMissiles.length = 1 := by
  have hguard := (C3_fire 400 650 stC3).2.1
    (by norm_num [GAME_HEIGHT, GROUND_HEIGHT])
  obtain ⟨j, b, hfb, hget, hactive, hammo, hmin, hfire, hdec, hother⟩ :=
    (C3_fire 400 300 stC3).2.2.2 rfl (by norm_num [GAME_HEIGHT, GROUND_HEIGHT])
      ⟨{ x := GAME_WIDTH * 0.1, y := GAME_HEIGHT - GROUND_HEIGHT + 10,
         active := true, ammo := 20, maxAmmo := 20 },
       by simp [stC3, initTowers], rfl, by norm_num⟩
  have hfb2 : findBest 400 300 stC3.towers =
      some (1, { x := GAME_WIDTH * 0.5, y := GAME_HEIGHT - GROUND_HEIGHT + 10,
                 active := true, ammo := 40, maxAmmo := 40 }) := by
    norm_num [findBest, findBestGo, eligTower, distSq, stC3, initTowers,
      GAME_WIDTH, GAME_HEIGHT, GROUND_HEIGHT]
  rw [hfb] at hfb2
  have hj : j = 1 := by
    have := congrArg (fun o => (Option.map Prod.fst o)) hfb2
    simpa using this
  have hb : b = { x := GAME_WIDTH * 0.5, y := GAME_HEIGHT - GROUND_HEIGHT + 10,
                  active := true, ammo := 40, maxAmmo := 40 } := by
    have := congrArg (fun o => (Option.map Prod.snd o)) hfb2
    simpa using this
  subst hj
  subst hb
  refine ⟨hguard, ?_, ?_⟩
  · rw [hfire]
    simpa using hdec
  · rw [hfire]
    simp [stC3]

-- --- C8: the tower-ammo invariant ---

lemma waveStep_towers (st : GameSt) : (waveStep st).towers = st.towers := by
  unfold waveStep
  split <;> rfl

lemma spawnOrWave_towers (dt : ℚ) (env : Env) (st : GameSt) :
    (spawnOrWave dt env st).towers = st.towers := by
  unfold spawnOrWave
  split
  · exact spawnStep_towers dt env st
  · exact waveStep_towers st

lemma damageTowers_ammo (px py : ℚ) (ts : List Tower) :
    ∀ u ∈ (damageTowers px py ts).1,
      ∃ t ∈ ts, u.ammo = t.ammo ∧ u.maxAmmo = t.maxAmmo := by
  rw [damageTowers_eq]
  intro u hu
  rcases List.mem_map.mp hu with ⟨t, htm, rfl⟩
  refine ⟨t, htm, ?_, ?_⟩ <;>
    by_cases h : (t.active && hitNear px py t.x t.y) = true <;> simp [h]

lemma stepEnemy_towers_ammo (dt r : ℚ) (m : Missile) (cs : List City) (ts : List Tower) :
    ∀ u ∈ (stepEnemy dt r m cs ts).2.2.1,
      ∃ t ∈ ts, u.ammo = t.ammo ∧ u.maxAmmo = t.maxAmmo := by
  intro u hu
  by_cases hact : m.active
  · by_cases himp : 1 ≤ m.progress + m.speed * dt * 0.005
    · rw [show (stepEnemy dt r m cs ts).2.2.1 =
          (damageTowers (impactX dt m) (impactY dt m) ts).1 from by
            simp [stepEnemy, hact, himp, impactX, impactY, impactProg]] at hu
      exact damageTowers_ammo _ _ ts u hu
    · rw [show (stepEnemy dt r m cs ts).2.2.1 = ts from by
        simp [stepEnemy, hact, himp]] at hu
      exact ⟨u, hu, rfl, rfl⟩
  · rw [show (stepEnemy dt r m cs ts).2.2.1 = ts from by
      simp [stepEnemy, hact]] at hu
    exact ⟨u, hu, rfl, rfl⟩

lemma enemyPhase_towers_ammo (dt : ℚ) (roll : ℕ → ℚ) :
    ∀ (ms : List Missile) (i : ℕ) (cs : List City) (ts : List Tower),
      ∀ u ∈ (enemyPhase dt roll i ms cs ts).2.2.1,
        ∃ t ∈ ts, u.ammo = t.ammo ∧ u.maxAmmo = t.maxAmmo
  | [], i, cs, ts => by
    intro u hu
    simp only [enemyPhase] at hu
    exact ⟨u, hu, rfl, rfl⟩
  | m :: ms, i, cs, ts => by
    intro u hu
    rw [show (enemyPhase dt roll i (m :: ms) cs ts).2.2.1 =
        (enemyPhase dt roll (i + 1) ms (stepEnemy dt (roll i) m cs ts).2.1
          (stepEnemy dt (roll i) m cs ts).2.2.1).2.2.1 from by
      rw [enemyPhase]] at hu
    obtain ⟨t1, ht1, hu1, hu2⟩ := enemyPhase_towers_ammo dt roll ms (i + 1)
      (stepEnemy dt (roll i) m cs ts).2.1 (stepEnemy dt (roll i) m cs ts).2.2.1 u hu
    obtain ⟨t0, ht0, ht01, ht02⟩ := stepEnemy_towers_ammo dt (roll i) m cs ts t1 ht1
    exact ⟨t0, ht0, hu1.trans ht01, hu2.trans ht02⟩

lemma cleanup_towers (st : GameSt) : (cleanup st).towers = st.towers := rfl

lemma endGame_towers (g : GState) (st : GameSt) : (endGame g st).towers = st.towers := by
  unfold endGame
  dsimp only
  split
  · rfl
  · split <;> rfl

lemma update_towers_ammo (dt : ℚ) (env : Env) (st : GameSt) :
    ∀ u ∈ (update dt env st).towers,
      ∃ t ∈ st.towers, u.ammo = t.ammo ∧ u.maxAmmo = t.maxAmmo := by
  intro u hu
  by_cases hgs : st.gameState ≠ GState.playing
  · rw [update, if_pos hgs] at hu
    exact ⟨u, hu, rfl, rfl⟩
  · rw [update, if_neg hgs] at hu
    rw [endGame_towers, cleanup_towers] at hu
    dsimp only at hu
    obtain ⟨t1, ht1, h1, h2⟩ := enemyPhase_towers_ammo dt env.eRoll _ 0 _ _ u hu
    rw [spawnOrWave_towers] at ht1
    exact ⟨t1, ht1, h1, h2⟩

/-- C8: the tower-ammo invariant `0 ≤ ammo ≤ maxAmmo` is established by
session initialisation and preserved by every operation: `fire` only ever
decrements a tower whose ammo is strictly positive (so ammo never drops
below 0), the tick update never changes ammo, and the wave transition sets
each active tower's ammo to exactly `maxAmmo`. -/
theorem C8_ammo_invariant (st st2 : GameSt) (b : Bool) (dt : ℚ) (env : Env)
    (tx ty : ℚ) :
    AmmoInv (initGame b st2) ∧
    (AmmoInv st → AmmoInv (fire tx ty st)) ∧
    (AmmoInv st → AmmoInv (update dt env st)) ∧
    (AmmoInv st → AmmoInv (startNextWave st)) ∧
    (AmmoInv st → ∀ t ∈ (startNextWave st).towers, t.active = true →
      t.ammo = t.maxAmmo) := by
  refine ⟨?_, ?_, ?_, ?_, ?_⟩
  · have htow : (initGame b st2).towers = initTowers := by
      cases b <;> rfl
    intro t ht
    rw [htow] at ht
    simp only [initTowers, List.mem_cons, List.not_mem_nil, or_false] at ht
    rcases ht with rfl | rfl | rfl <;> norm_num
  · intro hinv
    by_cases hgs : st.gameState ≠ GState.playing
    · rw [fire, if_pos hgs]
      exact hinv
    · rw [fire, if_neg hgs]
      by_cases hg : GAME_HEIGHT - GROUND_HEIGHT + 10 < ty
      · rw [if_pos hg]
        exact hinv
      · rw [if_neg hg]
        cases hfb : findBest tx ty st.towers with
        | none => exact hinv
        | some jb =>
          obtain ⟨j, bt⟩ := jb
          have hs := findBest_some tx ty st.towers j bt hfb
          have helig : bt.active = true ∧ 0 < bt.ammo := by
            have := hs.1
            simp [eligTower] at this
            exact this
          intro u hu
          dsimp only at hu
          obtain ⟨k, hk⟩ := List.mem_iff_get?.mp hu
          rw [decAmmoAt_get?] at hk
          by_cases hkj : k = j
          · rw [if_pos hkj, hkj, hs.2.1, Option.map_some'] at hk
            have hbmem : bt ∈ st.towers := List.get?_mem hs.2.1
            have hbinv := hinv bt hbmem
            cases hk
            constructor
            · simp only
              omega
            · simp only
              omega
          · rw [if_neg hkj] at hk
            exact hinv u (List.get?_mem hk)
  · intro hinv u hu
    obtain ⟨t, ht, h1, h2⟩ := update_towers_ammo dt env st u hu
    have := hinv t ht
    omega
  · intro hinv u hu
    have : u ∈ st.towers.map
        (fun t => if t.active then { t with ammo := t.maxAmmo } else t) := hu
    rcases List.mem_map.mp this with ⟨t, htm, rfl⟩
    have hi := hinv t htm
    by_cases h : t.active <;> simp [h] <;> omega
  · intro hinv t ht hact
    have : t ∈ st.towers.map
        (fun t => if t.active then { t with ammo := t.maxAmmo } else t) := ht
    rcases List.mem_map.mp this with ⟨t0, htm, rfl⟩
    by_cases h : t0.active
    · simp [h]
    · simp [h] at hact

theorem C8_ammo_invariant_witness :
    AmmoInv (initGame true stC3) ∧ AmmoInv (startNextWave stC5) := by
  have h := C8_ammo_invariant stC5 stC3 true 16 envC 400 300
  refine ⟨h.1, h.2.2.2.1 ?_⟩
  intro t ht
  simp only [stC5, List.mem_cons, List.not_mem_nil, or_false] at ht
  rcases ht with rfl | rfl | rfl <;> norm_num

-- --- C9: score monotonicity ---

lemma ammoBonus_nonneg : ∀ ts : List Tower, (∀ t ∈ ts, 0 ≤ t.ammo) → 0 ≤ ammoBonus ts
  | [], _ => le_refl 0
  | t :: ts, h => by
    have h1 := h t (by simp)
    have h2 := ammoBonus_nonneg ts (fun u hu => h u (by simp [hu]))
    have hunf : ammoBonus (t :: ts) =
        (if t.active then t.ammo * AMMO_BONUS else 0) + ammoBonus ts := rfl
    rcases Bool.eq_false_or_eq_true t.active with ha | ha
    · have h3 : (0 : ℤ) ≤ t.ammo * AMMO_BONUS :=
        mul_nonneg h1 (by norm_num [AMMO_BONUS])
      rw [hunf, if_pos ha]
      exact add_nonneg h3 h2
    · rw [hunf, if_neg (by simp [ha])]
      simpa using h2

lemma cleanup_score (st : GameSt) : (cleanup st).score = st.score := rfl

lemma endGame_score (g : GState) (st : GameSt) : (endGame g st).score = st.score := by
  unfold endGame
  dsimp only
  split
  · rfl
  · split <;> rfl

lemma spawnOrWave_score (dt : ℚ) (env : Env) (st : GameSt) :
    (spawnOrWave dt env st).score =
      st.score + (if waveFires st then ammoBonus st.towers else 0) := by
  unfold spawnOrWave
  by_cases hlt : st.enemiesSpawned < st.enemiesToSpawn
  · rw [if_pos hlt, spawnStep_score]
    have hw : waveFires st = false := by simp [waveFires, hlt]
    rw [hw]
    simp
  · rw [if_neg hlt]
    unfold waveStep
    by_cases hemp : st.enemyMissiles.isEmpty && st.explosions.isEmpty
    · have hboth := (Bool.and_eq_true _ _).mp hemp
      have hw : waveFires st = true := by
        simp [waveFires, hlt, hboth.1, hboth.2]
      rw [if_pos hemp, hw]
      simp
    · have hw : waveFires st = false := by
        rcases Bool.eq_false_or_eq_true st.enemyMissiles.isEmpty with h1 | h1
        · rcases Bool.eq_false_or_eq_true st.explosions.isEmpty with h2 | h2
          · rw [h1, h2] at hemp
            simp at hemp
          · simp [waveFires, h2]
        · simp [waveFires, h1]
      rw [if_neg hemp, hw]
      simp

lemma explosionPhase_score_ex (dt : ℚ) (es : List Explosion) (ms : List Missile)
    (sc : ℤ) :
    ∃ k : ℕ, (explosionPhase dt es ms sc).2.2.1 = sc + 20 * (k : ℤ) := by
  obtain ⟨h1, h2⟩ := explosionPhase_score dt es ms sc
  refine ⟨ms.countP (fun m => m.active) -
    (explosionPhase dt es ms sc).2.1.countP (fun m => m.active), ?_⟩
  rw [h2]
  have h3 := Nat.cast_sub (R := ℤ) h1
  omega

lemma fire_score (tx ty : ℚ) (st : GameSt) : (fire tx ty st).score = st.score := by
  unfold fire
  split
  · rfl
  · split
    · rfl
    · split <;> rfl

lemma update_score (dt : ℚ) (env : Env) (st : GameSt)
    (hplay : st.gameState = GState.playing) :
    ∃ k : ℕ, (update dt env st).score =
      st.score + (if waveFires st then ammoBonus st.towers else 0) + 20 * (k : ℤ) := by
  have hne : ¬ st.gameState ≠ GState.playing := by simp [hplay]
  rw [update, if_neg hne]
  dsimp only
  rw [endGame_score, cleanup_score]
  dsimp only
  obtain ⟨k, hk⟩ := explosionPhase_score_ex dt
    ((spawnOrWave dt env st).explosions ++
      (playerPhase dt env.pRoll 0 (spawnOrWave dt env st).playerMissiles).2 ++
      (enemyPhase dt env.eRoll 0 (spawnOrWave dt env st).enemyMissiles
        (spawnOrWave dt env st).cities (spawnOrWave dt env st).towers).2.2.2)
    (enemyPhase dt env.eRoll 0 (spawnOrWave dt env st).enemyMissiles
      (spawnOrWave dt env st).cities (spawnOrWave dt env st).towers).1
    (spawnOrWave dt env st).score
  refine ⟨k, ?_⟩
  rw [hk, spawnOrWave_score]

/-- C9: within a session the score is monotonically non-decreasing over
ticks: a tick changes it exactly by the (non-negative) ammo bonus when the
wave-complete transition fires plus 20 points per enemy missile
intercepted in the collision pass; `fire` and the wave transition never
change the score, and only a new session (`initGame` with score reset)
sets it back to 0. -/
theorem C9_score_monotonic (dt : ℚ) (env : Env) (st st2 : GameSt) (tx ty : ℚ) :
    (st.gameState = GState.playing → AmmoInv st →
      st.score ≤ (update dt env st).score ∧
      ∃ k : ℕ, (update dt env st).score =
        st.score + (if waveFires st then ammoBonus st.towers else 0) + 20 * (k : ℤ)) ∧
    (st.gameState ≠ GState.playing → (update dt env st).score = st.score) ∧
    (fire tx ty st).score = st.score ∧
    (startNextWave st).score = st.score ∧
    (initGame true st2).score = 0 := by
  refine ⟨?_, ?_, fire_score tx ty st, rfl, rfl⟩
  · intro hplay hinv
    obtain ⟨k, hk⟩ := update_score dt env st hplay
    have hT : 0 ≤ (if waveFires st then ammoBonus st.towers else 0) := by
      by_cases hw : waveFires st
      · simp only [hw, ite_true]
        exact ammoBonus_nonneg st.towers (fun t ht => (hinv t ht).1)
      · simp [hw]
    have hk0 : (0 : ℤ) ≤ 20 * (k : ℤ) := by positivity
    exact ⟨by omega, k, hk⟩
  · intro h
    rw [update, if_pos h]

theorem C9_score_monotonic_witness :
    stC5.score ≤ (update 16 envC stC5).score ∧
    (startNextWave stC5).score = stC5.score ∧
    (initGame true stC5).score = 0 := by
  have h := C9_score_monotonic 16 envC stC5 stC5 400 300
  refine ⟨(h.1 rfl ?_).1, h.2.2.2.1, h.2.2.2.2⟩
  intro t ht
  simp only [stC5, List.mem_cons, List.not_mem_nil, or_false] at ht
  rcases ht with rfl | rfl | rfl <;> norm_num

-- --- C10: wave-bonus victory in the same tick ---

/-- C10: in the tick in which the wave-complete transition fires, the
end-of-tick victory check still runs against the tick-start `playing`
closure value, so if the ammo bonus lifts the score to `WIN_SCORE` or
more, the session enters victory on that very tick, without waiting for
the 3000 ms wave-complete delay. -/
theorem C10_wave_bonus_victory (dt : ℚ) (env : Env) (st : GameSt)
    (hplay : st.gameState = GState.playing)
    (hspawn : st.enemiesToSpawn ≤ st.enemiesSpawned)
    (hem : st.enemyMissiles = [])
    (hex : st.explosions = [])
    (hpm : st.playerMissiles = [])
    (htow : (st.towers.filter (fun t => t.active)).length ≠ 0)
    (hscore : WIN_SCORE ≤ st.score + ammoBonus st.towers) :
    (update dt env st).gameState = GState.victory ∧
    (update dt env st).score = st.score + ammoBonus st.towers := by
  have hne : ¬ st.gameState ≠ GState.playing := by simp [hplay]
  have hnlt : ¬ st.enemiesSpawned < st.enemiesToSpawn := by omega
  have hs1 : spawnOrWave dt env st =
      { st with
        score := st.score + ammoBonus st.towers,
        waveMessage := ammoBonus st.towers,
        gameState := GState.wave_complete } := by
    rw [spawnOrWave, if_neg hnlt, waveStep, if_pos (by simp [hem, hex])]
  rw [update, if_neg hne]
  dsimp only
  rw [hs1]
  dsimp only
  rw [hpm, hem, hex]
  simp only [playerPhase, enemyPhase, explosionPhase, List.append_nil, List.nil_append]
  refine ⟨?_, ?_⟩ <;> simp [cleanup, endGame, htow, hscore, hplay]

/-- Concrete state for the C10 witness: budget exhausted, battlefield
clear, one active tower with 200 unused ammo, so the bonus alone is 1000
and victory fires on the wave-complete tick. -/
def stC10 : GameSt :=
  { gameState := GState.playing
    towers := [{ x := 400, y := 570, active := true, ammo := 200, maxAmmo := 200 }]
    cities := []
    playerMissiles := []
    enemyMissiles := []
    explosions := []
    spawnTimer := 0
    spawnInterval := 2000
    score := 0
    wave := 1
    enemiesToSpawn := 10
    enemiesSpawned := 10
    enemySpeedMultiplier := 1
    waveMessage := 0 }

theorem C10_wave_bonus_victory_witness :
    (update 16 envC stC10).gameState = GState.victory ∧
    (update 16 envC stC10).score = 1000 := by
  have h := C10_wave_bonus_victory 16 envC stC10 rfl (by norm_num [stC10]) rfl rfl rfl
    (by simp [stC10]) (by norm_num [stC10, ammoBonus, AMMO_BONUS, WIN_SCORE])
  refine ⟨h.1, ?_⟩
  rw [h.2]
  norm_num [stC10, ammoBonus, AMMO_BONUS]

-- --- C2: the within-tick phase ordering ---

/-- C2 (amended): within a tick the phases run in this fixed order: the
spawn / wave-complete conditional first (spawning and the wave-complete
check are the two mutually exclusive branches of one conditional, so the
wave-complete check precedes the motion/collision phases and tests the
previous tick's entity lists), then player-missile motion, then
enemy-missile motion with structure damage, then explosion aging with
interception, then cleanup, and the defeat/victory check last, evaluated
against the tick-start game state. -/
theorem C2_tick_order (dt : ℚ) (env : Env) (st : GameSt) :
    update dt env st =
      if st.gameState ≠ GState.playing then st
      else
        endGame st.gameState (cleanup
          { spawnOrWave dt env st with
            playerMissiles :=
              (playerPhase dt env.pRoll 0 (spawnOrWave dt env st).playerMissiles).1,
            enemyMissiles :=
              (explosionPhase dt
                ((spawnOrWave dt env st).explosions ++
                  (playerPhase dt env.pRoll 0 (spawnOrWave dt env st).playerMissiles).2 ++
                  (enemyPhase dt env.eRoll 0 (spawnOrWave dt env st).enemyMissiles
                    (spawnOrWave dt env st).cities (spawnOrWave dt env st).towers).2.2.2)
                (enemyPhase dt env.eRoll 0 (spawnOrWave dt env st).enemyMissiles
                  (spawnOrWave dt env st).cities (spawnOrWave dt env st).towers).1
                (spawnOrWave dt env st).score).2.1,
            cities :=
              (enemyPhase dt env.eRoll 0 (spawnOrWave dt env st).enemyMissiles
                (spawnOrWave dt env st).cities (spawnOrWave dt env st).towers).2.1,
            towers :=
              (enemyPhase dt env.eRoll 0 (spawnOrWave dt env st).enemyMissiles
                (spawnOrWave dt env st).cities (spawnOrWave dt env st).towers).2.2.1,
            explosions :=
              (explosionPhase dt
                ((spawnOrWave dt env st).explosions ++
                  (playerPhase dt env.pRoll 0 (spawnOrWave dt env st).playerMissiles).2 ++
                  (enemyPhase dt env.eRoll 0 (spawnOrWave dt env st).enemyMissiles
                    (spawnOrWave dt env st).cities (spawnOrWave dt env st).towers).2.2.2)
                (enemyPhase dt env.eRoll 0 (spawnOrWave dt env st).enemyMissiles
                  (spawnOrWave dt env st).cities (spawnOrWave dt env st).towers).1
                (spawnOrWave dt env st).score).1 ++
              (explosionPhase dt
                ((spawnOrWave dt env st).explosions ++
                  (playerPhase dt env.pRoll 0 (spawnOrWave dt env st).playerMissiles).2 ++
                  (enemyPhase dt env.eRoll 0 (spawnOrWave dt env st).enemyMissiles
                    (spawnOrWave dt env st).cities (spawnOrWave dt env st).towers).2.2.2)
                (enemyPhase dt env.eRoll 0 (spawnOrWave dt env st).enemyMissiles
                  (spawnOrWave dt env st).cities (spawnOrWave dt env st).towers).1
                (spawnOrWave dt env st).score).2.2.2,
            score :=
              (explosionPhase dt
                ((spawnOrWave dt env st).explosions ++
                  (playerPhase dt env.pRoll 0 (spawnOrWave dt env st).playerMissiles).2 ++
                  (enemyPhase dt env.eRoll 0 (spawnOrWave dt env st).enemyMissiles
                    (spawnOrWave dt env st).cities (spawnOrWave dt env st).towers).2.2.2)
                (enemyPhase dt env.eRoll 0 (spawnOrWave dt env st).enemyMissiles
                  (spawnOrWave dt env st).cities (spawnOrWave dt env st).towers).1
                (spawnOrWave dt env st).score).2.2.1 }) := rfl

/-- Concrete state for the C2 counterexample: budget exhausted, no enemy
missiles, and one explosion that expires during this very tick, so the
code (which tests wave completion before aging the explosion) stays in
playing, while the spec's claimed ordering (motion/collision before the
wave-complete check) would fire the transition and add the bonus. -/
def stC2 : GameSt :=
  { gameState := GState.playing
    towers := [{ x := 80, y := 570, active := true, ammo := 5, maxAmmo := 20 }]
    cities := []
    playerMissiles := []
    enemyMissiles := []
    explosions := [{ x := 100, y := 100, active := true, radius := 10,
                     maxRadius := 40, duration := 800, age := 795 }]
    spawnTimer := 0
    spawnInterval := 2000
    score := 0
    wave := 1
    enemiesToSpawn := 10
    enemiesSpawned := 10
    enemySpeedMultiplier := 1
    waveMessage := 0 }

/-- Counterexample to C2 as stated: on stC2 the source tick keeps playing
with the score unchanged, while the spec-ordered tick (wave-complete check
after motion/collision) reaches wave_complete — so the claimed ordering is
not the code's ordering. -/
theorem C2_counterexample :
    update 16 envC stC2 ≠ updateSpecOrdered 16 envC stC2 ∧
    (update 16 envC stC2).gameState = GState.playing ∧
    (updateSpecOrdered 16 envC stC2).gameState = GState.wave_complete := by
  have h1 : (update 16 envC stC2).gameState = GState.playing := by
    norm_num [update, spawnOrWave, waveStep, spawnStep, playerPhase, enemyPhase,
      explosionPhase, interceptPass, cleanup, endGame, stC2, envC, ammoBonus,
      radiusAt, hitByBlast, distLtB, distSq, mkSecondary, WIN_SCORE, AMMO_BONUS]
  have h2 : (updateSpecOrdered 16 envC stC2).gameState = GState.wave_complete := by
    norm_num [updateSpecOrdered, waveStep, spawnStep, playerPhase, enemyPhase,
      explosionPhase, interceptPass, cleanup, endGame, stC2, envC, ammoBonus,
      radiusAt, hitByBlast, distLtB, distSq, mkSecondary, WIN_SCORE, AMMO_BONUS]
  refine ⟨?_, h1, h2⟩
  intro heq
  rw [heq, h2] at h1
  simp at h1

end TinaNova
